import Mathlib

/-!
Verification of the NovaSDS011 WeeWX service driver core
(`bin/user/novaSDS011.py`): command-frame construction, query-response
decoding, header resynchronization, the duty-cycle publish step, the
shared reading cache, and the atomic JSON snapshot writer.

Bytes are modelled as natural numbers (with `< 256` range hypotheses where
the source would reject out-of-range values), Python `float` arithmetic on
sensor readings as exact rational arithmetic, and serial reads as a finite
list of `Option Nat` results (`none` = a read that timed out and returned
the empty byte string).
-/

namespace NovaSDS011

/-- Failure modes of `construct_command`: the `assert len(data) <= 12`
(the spec's `InvalidCommandData`), and the `ValueError` that `bytes(...)`
raises on a value outside `0..255`. -/
inductive CmdError
  | invalidCommandData
  | byteRangeError
deriving DecidableEq

/-- Embedding of `construct_command(cmd, data)`.

The Python body runs `assert len(data) <= 12`, then extends the caller's
list in place (`data += [0] * (12 - len(data))`), computes
`checksum = (sum(data) + cmd - 2) % 256` with Python integer semantics
(modelled by `Int` arithmetic and `%`, both of which yield a non-negative
remainder for a positive modulus), and returns
`b"\xaa\xb4" + bytes([cmd]) + bytes(data) + b"\xff\xff" + bytes([checksum]) + b"\xab"`.

Because the `+=` mutates the argument, the embedding returns the frame
together with the list the caller's `data` refers to after the call. -/
def construct_command (cmd : Nat) (data : List Nat) :
    Except CmdError (List Nat × List Nat) :=
  if data.length ≤ 12 then
    let padded := data ++ List.replicate (12 - data.length) 0
    if cmd < 256 ∧ ∀ x ∈ padded, x < 256 then
      let checksum := (((padded.sum : Int) + (cmd : Int) - 2) % 256).toNat
      Except.ok ([0xaa, 0xb4, cmd] ++ padded ++ [0xff, 0xff, checksum, 0xab],
        padded)
    else Except.error CmdError.byteRangeError
  else Except.error CmdError.invalidCommandData

/-- Final value of the caller's `data` list after a successful call. -/
def dataAfter (r : Except CmdError (List Nat × List Nat)) : Option (List Nat) :=
  match r with
  | Except.ok (_, after) => some after
  | Except.error _ => none

/-- The frame a successful call returns. -/
def frameOf (r : Except CmdError (List Nat × List Nat)) : Option (List Nat) :=
  match r with
  | Except.ok (frame, _) => some frame
  | Except.error _ => none

lemma padded_all_lt (data : List Nat) (hbytes : ∀ x ∈ data, x < 256) :
    ∀ x ∈ data ++ List.replicate (12 - data.length) 0, x < 256 := by
  intro x hx
  rcases List.mem_append.mp hx with h | h
  · exact hbytes x h
  · have := List.eq_of_mem_replicate h
    omega

lemma construct_command_ok (cmd : Nat) (data : List Nat)
    (hcmd : cmd < 256) (hbytes : ∀ x ∈ data, x < 256)
    (hlen : data.length ≤ 12) :
    construct_command cmd data =
      Except.ok
        ([0xaa, 0xb4, cmd] ++ (data ++ List.replicate (12 - data.length) 0) ++
          [0xff, 0xff,
            ((((data ++ List.replicate (12 - data.length) 0).sum : Int) +
              (cmd : Int) - 2) % 256).toNat, 0xab],
         data ++ List.replicate (12 - data.length) 0) := by
  unfold construct_command
  rw [if_pos hlen, if_pos ⟨hcmd, padded_all_lt data hbytes⟩]

lemma getElem!_at_17 (l : List Nat) (h : l.length = 15) (a b c d : Nat) :
    (l ++ [a, b, c, d])[17]! = c := by
  have hlen : (l ++ [a, b, c, d]).length = 19 := by simp [h]
  have hlt : 17 < (l ++ [a, b, c, d]).length := by omega
  rw [getElem!_pos (l ++ [a, b, c, d]) 17 hlt]
  rw [List.getElem_append_right (by omega)]
  simp [h]

lemma checksum_toNat (s c : Nat) (hc : 2 ≤ c) :
    (((s : Int) + (c : Int) - 2) % 256).toNat = (s + c - 2) % 256 := by
  omega

/-- C1: for every command code in {2, 4, 6} and every data sequence of
byte values of length at most 12, byte 17 of the frame returned by
`construct_command` is `(sum of the zero-padded 12-byte data + cmd - 2) % 256`. -/
theorem construct_command_checksum (cmd : Nat) (data : List Nat)
    (hcmd : cmd = 2 ∨ cmd = 4 ∨ cmd = 6)
    (hbytes : ∀ x ∈ data, x < 256) (hlen : data.length ≤ 12) :
    ∃ frame after, construct_command cmd data = Except.ok (frame, after) ∧
      frame[17]! =
        ((data ++ List.replicate (12 - data.length) 0).sum + cmd - 2) % 256 := by
  have hcmd' : cmd < 256 := by rcases hcmd with h | h | h <;> omega
  have h2 : 2 ≤ cmd := by rcases hcmd with h | h | h <;> omega
  rw [construct_command_ok cmd data hcmd' hbytes hlen]
  refine ⟨_, _, rfl, ?_⟩
  have hplen : (data ++ List.replicate (12 - data.length) 0).length = 12 := by
    simp; omega
  have h15 : ([0xaa, 0xb4, cmd] ++ (data ++ List.replicate (12 - data.length) 0)).length = 15 := by
    simp [hplen]
  rw [getElem!_at_17 _ h15]
  exact checksum_toNat _ cmd h2

/-- Witness for C1 at `cmd = 4`, `data = [1, 2]`. -/
theorem construct_command_checksum_witness :
    ∃ frame after, construct_command 4 [1, 2] = Except.ok (frame, after) ∧
      frame[17]! =
        (([1, 2] ++ List.replicate (12 - [1, 2].length) 0).sum + 4 - 2) % 256 :=
  construct_command_checksum 4 [1, 2] (by decide) (by decide) (by decide)

/-- C7: `construct_command` fails with `InvalidCommandData` exactly when the
data sequence is longer than 12 bytes; for every data sequence of byte
values of length at most 12 it succeeds with a 19-byte frame
`{0xAA 0xB4, cmd, 12 zero-padded data bytes, 0xFF 0xFF, checksum, 0xAB}`. -/
theorem construct_command_invalid_iff (cmd : Nat) (data : List Nat)
    (hcmd : cmd < 256) (hbytes : ∀ x ∈ data, x < 256) :
    (construct_command cmd data = Except.error CmdError.invalidCommandData ↔
      12 < data.length) ∧
    (data.length ≤ 12 → ∃ cs frame after,
      construct_command cmd data = Except.ok (frame, after) ∧
      frame = [0xaa, 0xb4, cmd] ++
        (data ++ List.replicate (12 - data.length) 0) ++ [0xff, 0xff, cs, 0xab] ∧
      frame.length = 19) := by
  constructor
  · constructor
    · intro h
      by_contra hgt
      have hlen : data.length ≤ 12 := by omega
      rw [construct_command_ok cmd data hcmd hbytes hlen] at h
      exact Except.noConfusion h
    · intro h
      unfold construct_command
      rw [if_neg (by omega)]
  · intro hlen
    rw [construct_command_ok cmd data hcmd hbytes hlen]
    refine ⟨_, _, _, rfl, rfl, ?_⟩
    simp
    omega

/-- Witness for C7 at `cmd = 2`, `data = [1, 1]`. -/
theorem construct_command_invalid_iff_witness :
    (construct_command 2 [1, 1] = Except.error CmdError.invalidCommandData ↔
      12 < [1, 1].length) ∧
    ([1, 1].length ≤ 12 → ∃ cs frame after,
      construct_command 2 [1, 1] = Except.ok (frame, after) ∧
      frame = [0xaa, 0xb4, 2] ++
        ([1, 1] ++ List.replicate (12 - [1, 1].length) 0) ++ [0xff, 0xff, cs, 0xab] ∧
      frame.length = 19) :=
  construct_command_invalid_iff 2 [1, 1] (by decide) (by decide)

/-- C8 counterexample: `construct_command` is not free of side effects.
`data += [0] * (12 - len(data))` extends the caller's list in place, so
after `construct_command(2, [1])` the caller's list holds 12 entries, not
`[1]`. -/
theorem construct_command_mutates_caller_data :
    dataAfter (construct_command 2 [1]) =
      some [1, 0, 0, 0, 0, 0, 0, 0, 0, 0, 0, 0] ∧
    [1, 0, 0, 0, 0, 0, 0, 0, 0, 0, 0, 0] ≠ [1] := by
  constructor
  · rfl
  · decide

/-- C8 amended: `construct_command` is deterministic — the frame is a
function of `cmd` and `data` alone — but it is not side-effect free: on
success the caller's `data` list ends up equal to the original followed by
the zero padding, so it is unchanged only when the original length is
exactly 12. -/
theorem construct_command_deterministic_pads (cmd : Nat) (data : List Nat)
    (hcmd : cmd < 256) (hbytes : ∀ x ∈ data, x < 256)
    (hlen : data.length ≤ 12) :
    frameOf (construct_command cmd data) =
      frameOf (construct_command cmd data) ∧
    dataAfter (construct_command cmd data) =
      some (data ++ List.replicate (12 - data.length) 0) ∧
    (data ++ List.replicate (12 - data.length) 0 = data ↔ data.length = 12) := by
  refine ⟨rfl, ?_, ?_⟩
  · rw [construct_command_ok cmd data hcmd hbytes hlen]
    rfl
  · constructor
    · intro h
      have := congrArg List.length h
      simp at this
      omega
    · intro h
      rw [h]
      simp

/-- Witness for the amended C8 at `cmd = 6`, `data = [1, 0]`. -/
theorem construct_command_deterministic_pads_witness :
    frameOf (construct_command 6 [1, 0]) =
      frameOf (construct_command 6 [1, 0]) ∧
    dataAfter (construct_command 6 [1, 0]) =
      some ([1, 0] ++ List.replicate (12 - [1, 0].length) 0) ∧
    ([1, 0] ++ List.replicate (12 - [1, 0].length) 0 = [1, 0] ↔
      [1, 0].length = 12) :=
  construct_command_deterministic_pads 6 [1, 0] (by decide) (by decide) (by decide)

/-- Embedding of the validation-and-decode step of `cmd_query_data` on a
candidate response buffer `d`.  The Python code returns `(pm25, pm10)` when
`len(d) == 10 and d[0] == 0xaa and d[1] == 0xc0 and d[9] == 0xab`, with
`pm25 = (d[2] + d[3]*256) / 10.0` and `pm10 = (d[4] + d[5]*256) / 10.0`,
and `(None, None)` otherwise — never an exception from this step.  `none`
models the `(None, None)` "no reading" result; Python float division by
`10.0` is modelled by exact rational division. -/
def cmd_query_data_decode (d : List Nat) : Option (ℚ × ℚ) :=
  if d.length = 10 ∧ d[0]! = 0xaa ∧ d[1]! = 0xc0 ∧ d[9]! = 0xab then
    some (((d[2]! : ℚ) + (d[3]! : ℚ) * 256) / 10,
          ((d[4]! : ℚ) + (d[5]! : ℚ) * 256) / 10)
  else none

/-- C2: every valid query-response frame (10 bytes, header `0xAA`, type
`0xC0`, terminator `0xAB`) decodes to
`pm2_5 = (byte2 + byte3*256)/10` and `pm10_0 = (byte4 + byte5*256)/10`. -/
theorem cmd_query_data_valid_decode (d : List Nat) (hlen : d.length = 10)
    (h0 : d[0]! = 0xaa) (h1 : d[1]! = 0xc0) (h9 : d[9]! = 0xab) :
    cmd_query_data_decode d =
      some (((d[2]! : ℚ) + (d[3]! : ℚ) * 256) / 10,
            ((d[4]! : ℚ) + (d[5]! : ℚ) * 256) / 10) := by
  unfold cmd_query_data_decode
  rw [if_pos ⟨hlen, h0, h1, h9⟩]

/-- Witness for C2: the buffer
`{0xAA, 0xC0, 123 mod 256, 123 div 256, 456 mod 256, 456 div 256, 0, 0, 0, 0xAB}`
decodes to `pm2.5 = 12.3` and `pm10_0 = 45.6`. -/
theorem cmd_query_data_valid_decode_witness :
    cmd_query_data_decode
        [0xaa, 0xc0, 123 % 256, 123 / 256, 456 % 256, 456 / 256, 0, 0, 0, 0xab] =
      some ((12.3 : ℚ), (45.6 : ℚ)) := by
  have h := cmd_query_data_valid_decode
    [0xaa, 0xc0, 123 % 256, 123 / 256, 456 % 256, 456 / 256, 0, 0, 0, 0xab]
    (by decide) (by decide) (by decide) (by decide)
  rw [h]
  norm_num

/-- C3: every 10-byte candidate frame failing the header, type, or
terminator check yields "no reading" (`none`), not an error — the decode
step is a total function. -/
theorem cmd_query_data_malformed_none (d : List Nat) (hlen : d.length = 10)
    (hbad : d[0]! ≠ 0xaa ∨ d[1]! ≠ 0xc0 ∨ d[9]! ≠ 0xab) :
    cmd_query_data_decode d = none := by
  unfold cmd_query_data_decode
  rw [if_neg]
  intro ⟨_, h0, h1, h9⟩
  rcases hbad with h | h | h
  · exact h h0
  · exact h h1
  · exact h h9

/-- Witness for C3 at the all-zero 10-byte buffer. -/
theorem cmd_query_data_malformed_none_witness :
    cmd_query_data_decode [0, 0, 0, 0, 0, 0, 0, 0, 0, 0] = none :=
  cmd_query_data_malformed_none [0, 0, 0, 0, 0, 0, 0, 0, 0, 0]
    (by decide) (Or.inl (by decide))

/-- Outcome of the header-scan loop at the start of `read_response`.
`found rest` — a read returned `0xAA` and `rest` of the stream remains;
`noResponse rest` — the loop exited with `retries = 10` and the
`TimeoutError("No response from sensor")` is raised;
`ranOut` — the modelled finite prefix of the stream was exhausted while
the loop would still be running. -/
inductive ScanResult
  | found (rest : List (Option Nat))
  | noResponse (rest : List (Option Nat))
  | ranOut
deriving DecidableEq

/-- Embedding of the scan loop of `read_response`:

```
byte = b''; retries = 0; max_retries = 10
while byte != b'\xaa' and retries < max_retries:
    byte = self.ser.read(size=1)
    if not byte:
        retries += 1
        time.sleep(0.1)
```

`reads` is the stream of results of successive `ser.read(size=1)` calls
(`none` = the read timed out and returned `b''`); `retries` is the loop
counter.  Note the counter advances only on an empty read. -/
def read_response_scan (reads : List (Option Nat)) (retries : Nat) : ScanResult :=
  if 10 ≤ retries then ScanResult.noResponse reads
  else
    match reads with
    | [] => ScanResult.ranOut
    | some b :: rest =>
        if b = 0xaa then ScanResult.found rest
        else read_response_scan rest retries
    | none :: rest => read_response_scan rest (retries + 1)

/-- Number of `ser.read` calls the scan loop performs on the given stream
prefix before it terminates (the whole prefix if it does not). -/
def read_response_reads_used (reads : List (Option Nat)) (retries : Nat) : Nat :=
  if 10 ≤ retries then 0
  else
    match reads with
    | [] => 0
    | some b :: rest =>
        if b = 0xaa then 1
        else 1 + read_response_reads_used rest retries
    | none :: rest => 1 + read_response_reads_used rest (retries + 1)

/-- Number of empty reads (`b''` results) the scan loop consumes. -/
def read_response_empty_reads (reads : List (Option Nat)) (retries : Nat) : Nat :=
  if 10 ≤ retries then 0
  else
    match reads with
    | [] => 0
    | some b :: rest =>
        if b = 0xaa then 0
        else read_response_empty_reads rest retries
    | none :: rest => 1 + read_response_empty_reads rest (retries + 1)

/-- C4 counterexample: the scan loop is NOT bounded by 10 read attempts.
On a stream that keeps supplying the non-header byte `0x00`, the loop
consumes 12 reads (more than 10) and is still scanning — `retries` only
advances on empty reads, so such a stream defeats the bound and the loop
never raises `NoResponse`. -/
theorem read_response_unbounded_on_noise :
    read_response_scan (List.replicate 12 (some 0)) 0 = ScanResult.ranOut ∧
    read_response_reads_used (List.replicate 12 (some 0)) 0 = 12 ∧
    10 < 12 := by
  refine ⟨?_, ?_, by decide⟩ <;> decide

lemma read_response_empty_reads_bound (reads : List (Option Nat)) :
    ∀ retries, retries ≤ 10 →
      retries + read_response_empty_reads reads retries ≤ 10 ∧
      (∀ rest, read_response_scan reads retries = ScanResult.noResponse rest →
        retries + read_response_empty_reads reads retries = 10) := by
  induction reads with
  | nil =>
      intro retries h
      constructor
      · rw [read_response_empty_reads]
        split
        · omega
        · omega
      · intro rest hscan
        rw [read_response_scan] at hscan
        rw [read_response_empty_reads]
        split at hscan
        · rw [if_pos (by omega)]
          omega
        · exact ScanResult.noConfusion hscan
  | cons r rest ih =>
      intro retries h
      by_cases h10 : 10 ≤ retries
      · constructor
        · rw [read_response_empty_reads.eq_def, if_pos h10]
          omega
        · intro rest' _
          rw [read_response_empty_reads.eq_def, if_pos h10]
          omega
      · match r with
        | some b =>
            by_cases hb : b = 0xaa
            · constructor
              · rw [read_response_empty_reads, if_neg h10]
                simp [hb]
                omega
              · intro rest' hscan
                rw [read_response_scan, if_neg h10] at hscan
                simp [hb] at hscan
            · constructor
              · rw [read_response_empty_reads, if_neg h10]
                simp [hb]
                exact (ih retries h).1
              · intro rest' hscan
                rw [read_response_scan, if_neg h10] at hscan
                simp [hb] at hscan
                rw [read_response_empty_reads, if_neg h10]
                simp [hb]
                exact (ih retries h).2 rest' hscan
        | none =>
            have h' : retries + 1 ≤ 10 := by omega
            constructor
            · rw [read_response_empty_reads, if_neg h10]
              have := (ih (retries + 1) h').1
              omega
            · intro rest' hscan
              rw [read_response_scan, if_neg h10] at hscan
              rw [read_response_empty_reads, if_neg h10]
              have := (ih (retries + 1) h').2 rest' hscan
              omega

/-- C4 amended: the scan loop of `read_response` performs at most 10 read
attempts THAT YIELD NO BYTE — reads that return a non-header byte do not
count against the bound, so the loop can consume arbitrarily many of them
(see the counterexample) — and it fails with `NoResponse` exactly after
10 empty reads accumulate without the header `0xAA` having arrived. -/
theorem read_response_bounded_empty_reads (reads : List (Option Nat)) :
    read_response_empty_reads reads 0 ≤ 10 ∧
    (∀ rest, read_response_scan reads 0 = ScanResult.noResponse rest →
      read_response_empty_reads reads 0 = 10) := by
  have h := read_response_empty_reads_bound reads 0 (by omega)
  constructor
  · omega
  · intro rest hscan
    have := h.2 rest hscan
    omega

/-- Witness for the amended C4: ten consecutive empty reads exhaust the
bound and the loop reports `NoResponse`. -/
theorem read_response_bounded_empty_reads_witness :
    read_response_empty_reads (List.replicate 10 none) 0 = 10 :=
  (read_response_bounded_empty_reads (List.replicate 10 none)).2 []
    (by decide)

/-- The latest-readings cache of `NovaSDS011Service`:
`self.latest_pm25`, `self.latest_pm10`, `self.last_update`. -/
structure CacheState where
  latest_pm25 : Option ℚ
  latest_pm10 : Option ℚ
  last_update : Option Nat
deriving DecidableEq

/-- The cache as `__init__` leaves it: all three fields `None`. -/
def initCache : CacheState := ⟨none, none, none⟩

/-- Embedding of the sample-collection loop of `sensor_loop`: one entry of
`outcomes` per `cmd_query_data()` attempt — `some (pm25, pm10)` for a
successful decode, `none` when the query returned `(None, None)` or raised
(both leave `samples` unchanged).  `samples.append((pm25, pm10))` runs
exactly on the `some` outcomes, in order. -/
def collectSamples (outcomes : List (Option (ℚ × ℚ))) : List (ℚ × ℚ) :=
  outcomes.filterMap id

/-- Embedding of the publish step at the end of an active phase
(`sensor_loop`, after the sampling loop):

```
if samples:
    pm25, pm10 = samples[-1]
    with self.lock:
        self.latest_pm25 = pm25
        self.latest_pm10 = pm10
        self.last_update = int(time.time())
    self.write_json(self.last_update, pm25, pm10)
else:
    log.warning(...)
```

Returns the new cache state and `some (ts, pm25, pm10)` when a
`write_json` call is made with those arguments, `none` when not. -/
def publishPhase (st : CacheState) (samples : List (ℚ × ℚ)) (now : Nat) :
    CacheState × Option (Nat × ℚ × ℚ) :=
  if h : samples = [] then (st, none)
  else
    let pm := samples.getLast h
    (⟨some pm.1, some pm.2, some now⟩, some (now, pm.1, pm.2))

/-- C5: for every non-empty sample list collected in one active phase, the
reading written to the cache and passed to `write_json` is exactly the last
element of the list. -/
theorem publishPhase_last_sample (st : CacheState) (samples : List (ℚ × ℚ))
    (now : Nat) (h : samples ≠ []) :
    publishPhase st samples now =
      (⟨some (samples.getLast h).1, some (samples.getLast h).2, some now⟩,
       some (now, (samples.getLast h).1, (samples.getLast h).2)) := by
  unfold publishPhase
  rw [dif_neg h]

/-- Witness for C5: the samples `[(1.0,1.0),(2.0,2.0),(3.0,3.0)]` publish
`(3.0, 3.0)`. -/
theorem publishPhase_last_sample_witness :
    publishPhase initCache
        [((1.0 : ℚ), (1.0 : ℚ)), (2.0, 2.0), (3.0, 3.0)] 100 =
      (⟨some (3.0 : ℚ), some (3.0 : ℚ), some 100⟩,
       some (100, (3.0 : ℚ), (3.0 : ℚ))) := by
  rw [publishPhase_last_sample initCache
    [((1.0 : ℚ), (1.0 : ℚ)), (2.0, 2.0), (3.0, 3.0)] 100 (by simp)]
  norm_num [List.getLast]

/-- C6: an active phase in which every query attempt fails or yields no
reading collects no samples, leaves all three cache fields unchanged, and
performs no `write_json` call. -/
theorem publishPhase_no_samples_unchanged (st : CacheState)
    (outcomes : List (Option (ℚ × ℚ))) (now : Nat)
    (h : ∀ o ∈ outcomes, o = none) :
    publishPhase st (collectSamples outcomes) now = (st, none) := by
  have hnil : collectSamples outcomes = [] := by
    unfold collectSamples
    rw [List.filterMap_eq_nil_iff]
    intro a ha
    exact h a ha
  rw [hnil]
  unfold publishPhase
  rw [dif_pos rfl]

/-- Witness for C6: two failed attempts leave a previously populated cache
untouched and trigger no write. -/
theorem publishPhase_no_samples_unchanged_witness :
    publishPhase ⟨some (5 : ℚ), some (6 : ℚ), some 50⟩
        (collectSamples [none, none]) 70 =
      (⟨some (5 : ℚ), some (6 : ℚ), some 50⟩, none) :=
  publishPhase_no_samples_unchanged ⟨some (5 : ℚ), some (6 : ℚ), some 50⟩
    [none, none] 70 (by simp)

/-- Cache states the service can reach: the `__init__` state, followed by
any number of end-of-phase publish steps (the only writer of the three
fields). -/
inductive ReachableCache : CacheState → Prop
  | init : ReachableCache initCache
  | step (st : CacheState) (samples : List (ℚ × ℚ)) (now : Nat) :
      ReachableCache st → ReachableCache (publishPhase st samples now).1

/-- Embedding of `new_loop_packet`: under the lock, if both cached values
are non-`None` the packet gains keys `pm2_5` and `pm10_0`; otherwise it is
left untouched. -/
def new_loop_packet (st : CacheState) (packet : List (String × ℚ)) :
    List (String × ℚ) :=
  match st.latest_pm25, st.latest_pm10 with
  | some p25, some p10 => packet ++ [("pm2_5", p25), ("pm10_0", p10)]
  | _, _ => packet

/-- C10: in every reachable cache state `latest_pm25` and `latest_pm10` are
both `None` or both non-`None`, so `new_loop_packet` either adds both
`pm2_5` and `pm10_0` or leaves the packet unchanged. -/
theorem cache_both_or_neither (st : CacheState)
    (packet : List (String × ℚ)) (h : ReachableCache st) :
    (st.latest_pm25.isSome ↔ st.latest_pm10.isSome) ∧
    ((∃ p25 p10, st.latest_pm25 = some p25 ∧ st.latest_pm10 = some p10 ∧
        new_loop_packet st packet =
          packet ++ [("pm2_5", p25), ("pm10_0", p10)]) ∨
      (st.latest_pm25 = none ∧ st.latest_pm10 = none ∧
        new_loop_packet st packet = packet)) := by
  have hinv : st.latest_pm25.isSome ↔ st.latest_pm10.isSome := by
    induction h with
    | init => simp [initCache]
    | step st' samples now _ ih =>
        unfold publishPhase
        split
        · exact ih
        · simp
  refine ⟨hinv, ?_⟩
  match h25 : st.latest_pm25, h10 : st.latest_pm10 with
  | some p25, some p10 =>
      left
      refine ⟨p25, p10, rfl, rfl, ?_⟩
      unfold new_loop_packet
      rw [h25, h10]
  | some p25, none => rw [h25, h10] at hinv; simp at hinv
  | none, some p10 => rw [h25, h10] at hinv; simp at hinv
  | none, none =>
      right
      refine ⟨rfl, rfl, ?_⟩
      unfold new_loop_packet
      rw [h25, h10]

/-- Witness for C10 at the initial state, which is reachable. -/
theorem cache_both_or_neither_witness :
    (initCache.latest_pm25.isSome ↔ initCache.latest_pm10.isSome) ∧
    ((∃ p25 p10, initCache.latest_pm25 = some p25 ∧
        initCache.latest_pm10 = some p10 ∧
        new_loop_packet initCache [("outTemp", 20)] =
          [("outTemp", 20)] ++ [("pm2_5", p25), ("pm10_0", p10)]) ∨
      (initCache.latest_pm25 = none ∧ initCache.latest_pm10 = none ∧
        new_loop_packet initCache [("outTemp", 20)] = [("outTemp", 20)])) :=
  cache_both_or_neither initCache [("outTemp", 20)] ReachableCache.init

/-- Filesystem operations performed by `write_json` (in source order):
`os.makedirs(dirpath, ...)`, creation of the `NamedTemporaryFile`, the
`json.dump` into it (complete at the close of the `with` block),
`os.chmod(tmpname, 0o644)`, and the atomic `os.replace(tmpname,
self.json_output)`. -/
inductive FsOp
  | makedirs (dir : String)
  | createTmp (path : String)
  | writeTmp (path : String) (content : String)
  | chmod (path : String)
  | rename (src : String) (dest : String)
deriving DecidableEq

/-- The exact operation sequence the body of `write_json` issues:
write the full JSON into the fresh temporary file, then chmod it, then
atomically rename it over the destination. -/
def write_json_trace (dir tmp dest content : String) : List FsOp :=
  [FsOp.makedirs dir, FsOp.createTmp tmp, FsOp.writeTmp tmp content,
   FsOp.chmod tmp, FsOp.rename tmp dest]

/-- POSIX-style effect of one operation on the map from paths to complete
file contents (`none` = absent).  `makedirs` and `chmod` touch no file
content; a write replaces the named file's content as a whole (the JSON is
fully flushed when the `with` block closes, before any later operation);
`rename` atomically installs the source's content at the destination and
removes the source. -/
def applyFsOp (fs : String → Option String) : FsOp → (String → Option String)
  | FsOp.makedirs _ => fs
  | FsOp.createTmp p => fun q => if q = p then some "" else fs q
  | FsOp.writeTmp p c => fun q => if q = p then some c else fs q
  | FsOp.chmod _ => fs
  | FsOp.rename src dst =>
      fun q => if q = dst then fs src else if q = src then none else fs q

/-- Contents of path `p` after the first `k` operations of a trace, i.e.
what a reader opening `p` between operations observes. -/
def observeAt (fs₀ : String → Option String) (trace : List FsOp) (k : Nat)
    (p : String) : Option String :=
  ((trace.take k).foldl applyFsOp fs₀) p

/-- C9: `write_json` writes the complete JSON to a fresh temporary file,
then chmods it, then atomically renames it over the destination; a reader
of the destination path at any point in the trace therefore sees either
the full prior content or the full new JSON, and after the final operation
it sees the new JSON. -/
theorem write_json_atomic_dest (fs₀ : String → Option String)
    (dir tmp dest content : String) (hne : tmp ≠ dest) (k : Nat)
    (hk : k ≤ (write_json_trace dir tmp dest content).length) :
    (observeAt fs₀ (write_json_trace dir tmp dest content) k dest = fs₀ dest ∨
     observeAt fs₀ (write_json_trace dir tmp dest content) k dest =
       some content) ∧
    observeAt fs₀ (write_json_trace dir tmp dest content) 5 dest =
      some content := by
  have hne' : dest ≠ tmp := fun h => hne h.symm
  have hfull : observeAt fs₀ (write_json_trace dir tmp dest content) 5 dest =
      some content := by
    unfold observeAt write_json_trace
    simp [applyFsOp, hne']
  refine ⟨?_, hfull⟩
  have hlen : (write_json_trace dir tmp dest content).length = 5 := rfl
  rw [hlen] at hk
  interval_cases k
  · left; rfl
  · left; rfl
  · left
    unfold observeAt write_json_trace
    simp [applyFsOp, hne']
  · left
    unfold observeAt write_json_trace
    simp [applyFsOp, hne']
  · left
    unfold observeAt write_json_trace
    simp [applyFsOp, hne']
  · right; exact hfull

/-- Witness for C9 with concrete paths and the mid-trace read point
`k = 3` (between the JSON write and the chmod). -/
theorem write_json_atomic_dest_witness :
    (observeAt (fun _ => none)
        (write_json_trace "/var/www" "/var/www/tmp123" "/var/www/particles.txt"
          "json") 3 "/var/www/particles.txt" =
        (fun _ => none : String → Option String) "/var/www/particles.txt" ∨
     observeAt (fun _ => none)
        (write_json_trace "/var/www" "/var/www/tmp123" "/var/www/particles.txt"
          "json") 3 "/var/www/particles.txt" = some "json") ∧
    observeAt (fun _ => none)
        (write_json_trace "/var/www" "/var/www/tmp123" "/var/www/particles.txt"
          "json") 5 "/var/www/particles.txt" = some "json" :=
  write_json_atomic_dest (fun _ => none) "/var/www" "/var/www/tmp123"
    "/var/www/particles.txt" "json" (by decide) 3 (by decide)

end NovaSDS011
